import Mathlib

/-
Verification development for the Quanta execution core:
the bytecode compiler and interpreter, the JIT tiering bridge
(src/core/src/Bytecode.cpp), and the WebAssembly-like backend
(linear memory, binary module decoder, module interpreter and
instance wiring).  Machine integers are modelled as Nat or Int with
explicit reductions modulo 2 to the word size where the C code
overflows; fallible operations return Option or Bool exactly where
the source does.
-/

namespace Quanta

/-- Modelled from the spec: the host Value type (numeric, string,
object representation) is an external collaborator of this core, its
class definition is not part of the sources under verification.  The
spec describes values as numeric or string, with a default
(undefined) value returned on empty stacks.  The numeric domain is
modelled with exact integers; host floating point is external to
this repository, and every claim exercises only integral values. -/
inductive Value where
  | undefined : Value
  | num : Int → Value
  | str : String → Value
deriving DecidableEq

/-- Host Value.is_number test. -/
def Value.is_number (v : Value) : Bool :=
  match v with
  | Value.num _ => true
  | _ => false

/-- Host Value.to_number; in the verified code paths it is only ever
invoked under an is_number guard, so the default 0 branch is
unreachable there. -/
def Value.to_number (v : Value) : Int :=
  match v with
  | Value.num n => n
  | _ => 0

/-- Host Value.to_string; integers print the way the host prints
integral numbers. -/
def Value.to_string (v : Value) : String :=
  match v with
  | Value.num n => toString n
  | Value.str s => s
  | Value.undefined => "undefined"

/-! ## Bytecode ISA (src/core/src/Bytecode.cpp)

The header Bytecode.h is not among the sources; the instruction and
operand enumerations below are fixed by their uses inside
Bytecode.cpp (the only opcodes ever emitted or dispatched are NOP,
LOAD_CONST, ADD, CALL, RETURN, HALT) and by the data model of the
spec. -/

inductive BytecodeInstruction where
  | NOP | LOAD_CONST | ADD | CALL | RETURN | HALT
deriving DecidableEq, BEq

inductive OperandType where
  | CONSTANT | IMMEDIATE | REGISTER
deriving DecidableEq

structure BytecodeOperand where
  type : OperandType
  value : Nat
deriving DecidableEq

structure BytecodeOp where
  instruction : BytecodeInstruction
  operands : List BytecodeOperand
deriving DecidableEq

/-- BytecodeFunction: per the data model, an instruction sequence, a
constant pool, register and parameter counts, the hot-spot counters
(an unordered map from instruction address to execution count,
modelled as a total function defaulting to 0) and the optimization
state. -/
structure BytecodeFunction where
  function_name : String
  instructions : List BytecodeOp
  constants : List Value
  register_count : Nat
  parameter_count : Nat
  hot_spots : Nat → Nat
  is_optimized : Bool
  optimization_level : Nat

/-- BytecodeCompiler::optimize_bytecode: returns early when the
function pointer is null or level is 0, otherwise erases every NOP
instruction (std::remove_if) and records the optimization level and
flag. -/
def BytecodeCompiler.optimize_bytecode (f : BytecodeFunction) (level : Nat) :
    BytecodeFunction :=
  if level = 0 then f
  else
    { f with
      instructions :=
        f.instructions.filter (fun op => !(op.instruction == BytecodeInstruction.NOP)),
      is_optimized := true,
      optimization_level := level }

/-- BytecodeCompiler::dead_code_elimination_pass: erases every NOP
instruction, leaving all other state alone. -/
def BytecodeCompiler.dead_code_elimination_pass (f : BytecodeFunction) :
    BytecodeFunction :=
  { f with
    instructions :=
      f.instructions.filter (fun op => !(op.instruction == BytecodeInstruction.NOP)) }

/-! ## Bytecode interpreter (BytecodeVM) -/

/-- Profiling counters of the VM (BytecodeVM::stats_). -/
structure VMStats where
  instructions_executed : Nat
  function_calls : Nat
  optimized_paths_taken : Nat
deriving DecidableEq

/-- Mutable interpreter state during one BytecodeVM::execute call:
the register file, the operand stack (list head is the stack top)
and the statistics counters. -/
structure VMState where
  registers : List Value
  stack : List Value
  stats : VMStats

/-- BytecodeVM::execute_instruction_simple, one switch dispatch.  The
function argument is read (constant pool bounds check and access) and
never written, which the return value makes explicit.  LOAD_CONST
with no operand, or with a constant index that is not below the pool
size, leaves the stack untouched; ADD with fewer than two stack
entries is likewise a no-op; CALL pushes the placeholder 42 result;
RETURN, NOP and unknown opcodes do nothing here. -/
def BytecodeVM.execute_instruction_simple (op : BytecodeOp)
    (f : BytecodeFunction) (st : VMState) : BytecodeFunction × VMState :=
  match op.instruction with
  | BytecodeInstruction.LOAD_CONST =>
    match op.operands with
    | [] => (f, st)
    | o :: _ =>
      if o.value < f.constants.length then
        (f, { st with stack := f.constants.getD o.value Value.undefined :: st.stack })
      else (f, st)
  | BytecodeInstruction.ADD =>
    match st.stack with
    | right :: left :: rest =>
      let result :=
        if left.is_number && right.is_number then
          Value.num (left.to_number + right.to_number)
        else
          Value.str (left.to_string ++ right.to_string)
      (f, { st with
            stack := result :: rest,
            stats := { st.stats with
                       optimized_paths_taken := st.stats.optimized_paths_taken + 1 } })
    | _ => (f, st)
  | BytecodeInstruction.CALL =>
    (f, { st with
          stack := Value.num 42 :: st.stack,
          stats := { st.stats with function_calls := st.stats.function_calls + 1 } })
  | BytecodeInstruction.RETURN => (f, st)
  | BytecodeInstruction.NOP => (f, st)
  | BytecodeInstruction.HALT => (f, st)

/-- The fetch-decode-execute loop of BytecodeVM::execute.  The C++
loop walks the instruction vector with a program counter that only
ever advances by one and is never written by any handler, so the
walk is over the successive suffixes of the instruction list; no
handler writes to the function either, and the threaded function
value records that.  After each retirement the instruction counter
statistic is bumped; a RETURN or HALT opcode ends the loop. -/
def BytecodeVM.run_ops (f : BytecodeFunction) (ops : List BytecodeOp)
    (st : VMState) : BytecodeFunction × VMState :=
  match ops with
  | [] => (f, st)
  | op :: rest =>
    let fs := BytecodeVM.execute_instruction_simple op f st
    let st2 := { fs.2 with
                 stats := { fs.2.stats with
                            instructions_executed :=
                              fs.2.stats.instructions_executed + 1 } }
    if op.instruction = BytecodeInstruction.RETURN ∨
       op.instruction = BytecodeInstruction.HALT then (fs.1, st2)
    else BytecodeVM.run_ops fs.1 rest st2

/-- BytecodeVM::execute: size the register file to register_count
(default initialized), bind arguments positionally into the first
parameter_count registers, clear the stack, run the loop from
program counter 0, and return the stack top (undefined on an empty
stack).  The statistics member starts from this invocation's
baseline; the try/catch boundary of the source can never fire in
these total handlers.  The function the VM executed is returned
alongside the result value so that statements about its (absent)
mutation can be made. -/
def BytecodeVM.execute (f : BytecodeFunction) (args : List Value) :
    Value × BytecodeFunction :=
  let regs := (List.range f.register_count).map
    (fun i =>
      if i < args.length ∧ i < f.parameter_count then args.getD i Value.undefined
      else Value.undefined)
  let out := BytecodeVM.run_ops f f.instructions
    { registers := regs, stack := [], stats := ⟨0, 0, 0⟩ }
  (match out.2.stack with
   | [] => Value.undefined
   | v :: _ => v, out.1)

/-- BytecodeVM::record_execution: bump the hot-spot counter of the
given function at the given program counter. -/
def BytecodeVM.record_execution (f : BytecodeFunction) (pc : Nat) :
    BytecodeFunction :=
  { f with hot_spots := fun p => if p = pc then f.hot_spots p + 1 else f.hot_spots p }

/-- BytecodeJITBridge::compile_to_machine_code: reject (and change
nothing) when the function is already flagged optimized, otherwise
set the flag and tier 3. -/
def BytecodeJITBridge.compile_to_machine_code (f : BytecodeFunction) :
    Bool × BytecodeFunction :=
  if f.is_optimized then (false, f)
  else (true, { f with is_optimized := true, optimization_level := 3 })

/-! ## Linear memory (WasmMemory, src/unnamed/part_001) -/

/-- WASM page size in bytes. -/
def PAGE_SIZE : Nat := 65536

/-- WasmMemory: the backing ArrayBuffer is represented by its byte
length; the constructor records the initial and maximum page counts
and allocates initial_pages * PAGE_SIZE bytes. -/
structure WasmMemory where
  buffer_bytes : Nat
  initial_pages : Nat
  maximum_pages : Nat

/-- The WasmMemory constructor body. -/
def WasmMemory.init (initial_pages maximum_pages : Nat) : WasmMemory :=
  { buffer_bytes := initial_pages * PAGE_SIZE,
    initial_pages := initial_pages,
    maximum_pages := maximum_pages }

/-- WasmMemory::size: byte length of the buffer divided by the page
size (the null-buffer branch cannot arise, the constructor always
allocates). -/
def WasmMemory.size (m : WasmMemory) : Nat :=
  m.buffer_bytes / PAGE_SIZE

/-- WasmMemory::grow: computes size() + delta_pages in uint32
arithmetic, fails when that exceeds maximum_pages_, and otherwise
returns true.  No statement of the method writes to the object: the
buffer is never reallocated and the page count therefore never
changes, on success or failure. -/
def WasmMemory.grow (m : WasmMemory) (delta_pages : Nat) : Bool :=
  let new_pages := (m.size + delta_pages) % 2 ^ 32
  if new_pages > m.maximum_pages then false
  else true

/-! ## Binary module decoder (WasmModule, src/unnamed/part_001) -/

/-- A decoded section: the id byte (the C code casts the raw byte to
its SectionId enumeration; the raw byte value is kept here), the
declared size and the payload bytes. -/
structure WasmSection where
  id : Nat
  size : Nat
  data : List Nat
deriving DecidableEq

/-- WasmModule::read_leb128_u32 (textually identical to
WasmVM::read_leb128_u32): consume continuation-flagged bytes seven
value bits at a time into a uint32 accumulator, stopping on a byte
with a clear high bit, at the end of the input, or once the shift
reaches 32 bits.  Returns the decoded value and the unconsumed
suffix of the input. -/
def read_leb128_u32 : List Nat → Nat → Nat → Nat × List Nat
  | [], _, acc => (acc, [])
  | b :: rest, shift, acc =>
    let acc2 := (acc ||| (b &&& 0x7F) <<< shift) % 2 ^ 32
    if b &&& 0x80 = 0 then (acc2, rest)
    else if 32 ≤ shift + 7 then (acc2, rest)
    else read_leb128_u32 rest (shift + 7) acc2

/-- WasmModule::parse_section: read the one-byte section id, the
LEB128 size, and then exactly size payload bytes; fail when the
declared size extends past the end of the input. -/
def parse_section (bytes : List Nat) : Option (WasmSection × List Nat) :=
  match bytes with
  | [] => none
  | b :: rest =>
    let sized := read_leb128_u32 rest 0 0
    if sized.1 ≤ sized.2.length then
      some ({ id := b, size := sized.1, data := sized.2.take sized.1 },
            sized.2.drop sized.1)
    else none

/-- WasmModule::validate_module: the structural validation step only
confirms that decoding succeeded. -/
def validate_module (_sections : List WasmSection) : Bool := true

/-- The section loop of WasmModule::parse_sections: while bytes
remain, parse one section and accumulate it.  The loop is expressed
with a fuel argument instantiated with the input length; since every
iteration consumes at least the id byte, the fuel can never be
exhausted before the input is (lemma parse_section_shrinks below),
so the 0-fuel branch is unreachable from parse_sections. -/
def parse_sections_loop : Nat → List Nat → Option (List WasmSection)
  | _, [] => some []
  | 0, _ :: _ => none
  | fuel + 1, b :: rest =>
    match parse_section (b :: rest) with
    | none => none
    | some (sec, remaining) =>
      match parse_sections_loop fuel remaining with
      | none => none
      | some secs => some (sec :: secs)

/-- WasmModule::parse_sections: run the section loop over everything
after the 8-byte header, then the validation step. -/
def parse_sections (bytes : List Nat) : Option (List WasmSection) :=
  match parse_sections_loop bytes.length bytes with
  | none => none
  | some secs => if validate_module secs then some secs else none

/-- WasmModule::parse_binary together with parse_header: fewer than
8 input bytes, a first quadruple differing from the magic constant
0x00 0x61 0x73 0x6D, or a second quadruple differing from the
version 0x01 0x00 0x00 0x00 fail the decode; otherwise the bytes
after the header are split into sections.  Success returns the
decoded section list, failure returns none (is_compiled_ stays
false, so no module is produced). -/
def parse_binary (bytes : List Nat) : Option (List WasmSection) :=
  if bytes.length < 8 then none
  else if bytes.getD 0 0 ≠ 0x00 ∨ bytes.getD 1 0 ≠ 0x61 ∨
          bytes.getD 2 0 ≠ 0x73 ∨ bytes.getD 3 0 ≠ 0x6D then none
  else if bytes.getD 4 0 ≠ 0x01 ∨ bytes.getD 5 0 ≠ 0x00 ∨
          bytes.getD 6 0 ≠ 0x00 ∨ bytes.getD 7 0 ≠ 0x00 then none
  else parse_sections (bytes.drop 8)

/-- WasmModule state: the immutable input bytes, the decoded
sections and the compiled flag. -/
structure WasmModule where
  binary_data : List Nat
  sections : List WasmSection
  is_compiled : Bool

/-- WasmModule::compile: idempotent; an already compiled module
returns success immediately, otherwise the binary is parsed and on
success the flag is set.  (On a parse failure the C++ object can
retain section objects parsed before the failing one; the flag that
gates every consumer stays false, and no claim observes that
intermediate state.) -/
def WasmModule.compile (m : WasmModule) : Bool × WasmModule :=
  if m.is_compiled then (true, m)
  else
    match parse_binary m.binary_data with
    | none => (false, m)
    | some secs => (true, { m with sections := secs, is_compiled := true })

/-! ## Module interpreter (WasmVM, src/unnamed/part_001)

The WebAssembly.h header is not among the sources.  The WasmValue
union (i32 / f32 / f64 members over shared storage) and the Opcode
enumeration are modelled from the spec (a tagged numeric union and a
WebAssembly-like instruction byte format); the byte values 0x20
local.get, 0x41 i32.const, 0x6A i32.add, 0x6C i32.mul and 0x0F
return are fixed by the hand-written bytecode comments inside
src/unnamed/part_001 itself. -/

/-- Modelled from the spec: the WasmValue union.  All members alias
one storage area, of the size of the largest member (8 bytes);
storing a member writes its bit pattern, and each member read views
the (little-endian) low bytes of the storage.  Floating point
members are represented by their raw bit patterns; IEEE arithmetic
itself stays abstract (see FloatOps).  The default-constructed value
is the zero value the spec prescribes for empty-stack returns. -/
structure WasmValue where
  storage : Nat
deriving DecidableEq

/-- The i32 member view: the low 32 bits of the storage read as a
two's-complement signed integer. -/
def WasmValue.i32 (w : WasmValue) : Int :=
  let low : Nat := w.storage % 2 ^ 32
  if low < 2 ^ 31 then (low : Int) else (low : Int) - 2 ^ 32

/-- The f32 member view: the low 32 bits of the storage, as a raw
IEEE-754 single bit pattern. -/
def WasmValue.f32 (w : WasmValue) : Nat := w.storage % 2 ^ 32

/-- The f64 member view: the low 64 bits of the storage, as a raw
IEEE-754 double bit pattern. -/
def WasmValue.f64 (w : WasmValue) : Nat := w.storage % 2 ^ 64

/-- The WasmValue(int32_t) constructor: store the two's-complement
bit pattern of the value in the low 32 bits. -/
def WasmValue.ofI32 (v : Int) : WasmValue :=
  ⟨(v % 2 ^ 32).toNat⟩

/-- The WasmValue(float) constructor, by bit pattern. -/
def WasmValue.ofF32 (bits : Nat) : WasmValue := ⟨bits % 2 ^ 32⟩

/-- The WasmValue(double) constructor, by bit pattern. -/
def WasmValue.ofF64 (bits : Nat) : WasmValue := ⟨bits % 2 ^ 64⟩

/-- The default-constructed WasmValue (zero value). -/
def WasmValue.zero : WasmValue := ⟨0⟩

/-- Modelled from the spec: IEEE-754 float addition at the bit
pattern level is hardware arithmetic external to the sources; the
interpreter is parameterized over it, and every theorem about paths
that never reach a float instruction holds for all instantiations. -/
structure FloatOps where
  f32add : Nat → Nat → Nat
  f64add : Nat → Nat → Nat

/-- A concrete (arbitrary) instantiation of the abstract float
operations, used to evaluate the model on inputs whose execution
never reaches a float instruction. -/
def FloatOps.dummy : FloatOps := ⟨fun _ _ => 0, fun _ _ => 0⟩

/-- WasmVM::ExecutionFrame: the instruction cursor (pc / end pointer
pair becomes the remaining byte list), the locals array and the
operand stack (list head is the stack top). -/
structure ExecutionFrame where
  code : List Nat
  locals : List WasmValue
  stack : List WasmValue

/-- WasmVM::read_leb128_i32: a do-while loop reading into an int32
accumulator; unlike the unsigned decoder it increments the shift
before testing the continuation condition, and it does not
sign-extend a terminated encoding.  Returns the accumulator (read as
a signed 32-bit value) and the unconsumed suffix. -/
def read_leb128_i32_loop : List Nat → Nat → Nat → Nat × List Nat
  | [], _, acc => (acc, [])
  | b :: rest, shift, acc =>
    let acc2 := (acc ||| (b &&& 0x7F) <<< shift) % 2 ^ 32
    if b &&& 0x80 ≠ 0 ∧ shift + 7 < 32 then read_leb128_i32_loop rest (shift + 7) acc2
    else (acc2, rest)

/-- The signed view of the int32 accumulator of read_leb128_i32. -/
def read_leb128_i32 (bytes : List Nat) : Int × List Nat :=
  let out := read_leb128_i32_loop bytes 0 0
  ((WasmValue.mk out.1).i32, out.2)

/-- WasmVM::handle_i32_const: decode the signed immediate and push
it. -/
def WasmVM.handle_i32_const (frame : ExecutionFrame) : ExecutionFrame × Bool :=
  let out := read_leb128_i32 frame.code
  ({ frame with code := out.2, stack := WasmValue.ofI32 out.1 :: frame.stack }, true)

/-- WasmVM::handle_i32_add: pop b (the more recent), pop a, push the
int32 sum a.i32 + b.i32 (two's-complement wraparound); with fewer
than two stack entries the handler fails and the frame stops. -/
def WasmVM.handle_i32_add (frame : ExecutionFrame) : ExecutionFrame × Bool :=
  match frame.stack with
  | b :: a :: rest =>
    ({ frame with stack := WasmValue.ofI32 (a.i32 + b.i32) :: rest }, true)
  | _ => (frame, false)

/-- WasmVM::handle_i32_sub: pop b, pop a, push a.i32 - b.i32. -/
def WasmVM.handle_i32_sub (frame : ExecutionFrame) : ExecutionFrame × Bool :=
  match frame.stack with
  | b :: a :: rest =>
    ({ frame with stack := WasmValue.ofI32 (a.i32 - b.i32) :: rest }, true)
  | _ => (frame, false)

/-- WasmVM::handle_i32_mul: pop b, pop a, push a.i32 * b.i32. -/
def WasmVM.handle_i32_mul (frame : ExecutionFrame) : ExecutionFrame × Bool :=
  match frame.stack with
  | b :: a :: rest =>
    ({ frame with stack := WasmValue.ofI32 (a.i32 * b.i32) :: rest }, true)
  | _ => (frame, false)

/-- WasmVM::handle_f32_add: pop b, pop a, push the float sum of the
f32 member views (abstract IEEE bit-level addition). -/
def WasmVM.handle_f32_add (fops : FloatOps) (frame : ExecutionFrame) :
    ExecutionFrame × Bool :=
  match frame.stack with
  | b :: a :: rest =>
    ({ frame with stack := WasmValue.ofF32 (fops.f32add a.f32 b.f32) :: rest }, true)
  | _ => (frame, false)

/-- WasmVM::handle_f64_add: pop b, pop a, push the double sum of the
f64 member views (abstract IEEE bit-level addition). -/
def WasmVM.handle_f64_add (fops : FloatOps) (frame : ExecutionFrame) :
    ExecutionFrame × Bool :=
  match frame.stack with
  | b :: a :: rest =>
    ({ frame with stack := WasmValue.ofF64 (fops.f64add a.f64 b.f64) :: rest }, true)
  | _ => (frame, false)

/-- WasmVM::handle_local_get: decode the index; out of range fails
the frame (after the index bytes were consumed), in range pushes the
local. -/
def WasmVM.handle_local_get (frame : ExecutionFrame) : ExecutionFrame × Bool :=
  let out := read_leb128_u32 frame.code 0 0
  if out.1 < frame.locals.length then
    ({ frame with
        code := out.2,
        stack := frame.locals.getD out.1 WasmValue.zero :: frame.stack }, true)
  else ({ frame with code := out.2 }, false)

/-- WasmVM::handle_local_set: decode the index; an out-of-range
index or an empty stack fails the frame without popping, otherwise
the stack top is popped into the local. -/
def WasmVM.handle_local_set (frame : ExecutionFrame) : ExecutionFrame × Bool :=
  let out := read_leb128_u32 frame.code 0 0
  match frame.stack with
  | [] => ({ frame with code := out.2 }, false)
  | v :: s =>
    if out.1 < frame.locals.length then
      ({ frame with code := out.2, locals := frame.locals.set out.1 v, stack := s },
       true)
    else ({ frame with code := out.2 }, false)

/-- WasmVM::handle_return: stop the frame. -/
def WasmVM.handle_return (frame : ExecutionFrame) : ExecutionFrame × Bool :=
  (frame, false)

/-- WasmVM::execute_instruction: fetch the opcode byte and dispatch.
NOP continues, END stops, and any unrecognized byte is skipped (the
forward-compatible default).  The opcode byte values carried by the
enumeration are listed at the top of this section. -/
def WasmVM.execute_instruction (fops : FloatOps) (frame : ExecutionFrame) :
    ExecutionFrame × Bool :=
  match frame.code with
  | [] => (frame, false)
  | b :: rest =>
    let fr := { frame with code := rest }
    match b with
    | 0x01 => (fr, true)
    | 0x41 => WasmVM.handle_i32_const fr
    | 0x6A => WasmVM.handle_i32_add fr
    | 0x6B => WasmVM.handle_i32_sub fr
    | 0x6C => WasmVM.handle_i32_mul fr
    | 0x92 => WasmVM.handle_f32_add fops fr
    | 0xA0 => WasmVM.handle_f64_add fops fr
    | 0x20 => WasmVM.handle_local_get fr
    | 0x21 => WasmVM.handle_local_set fr
    | 0x0F => WasmVM.handle_return fr
    | 0x0B => (fr, false)
    | _ => (fr, true)

/-- The result extraction both exit paths of WasmVM::execute_function
perform: a default WasmValue (zero), overwritten by the stack top
when the stack is nonempty, whose i32 member is converted to the
host number. -/
def WasmVM.top_or_zero (s : List WasmValue) : WasmValue :=
  match s with
  | [] => WasmValue.zero
  | v :: _ => v

/-- The execution loop of WasmVM::execute_function: while the cursor
has not reached the end, execute one instruction; a false return
(RETURN, END, or a failed handler) stops the frame, and both exits
convert the i32 member of the stack top (or of the default zero
value) to the host number.  Fuel is instantiated with the byte count
of the function; every iteration consumes at least the opcode byte,
so the fuel cannot run out before the cursor reaches the end (lemma
execute_instruction_shrinks below), and the 0-fuel branch performs
the same exit extraction. -/
def WasmVM.execute_loop (fops : FloatOps) : Nat → ExecutionFrame → Value
  | 0, frame => Value.num (WasmVM.top_or_zero frame.stack).i32
  | fuel + 1, frame =>
    match frame.code with
    | [] => Value.num (WasmVM.top_or_zero frame.stack).i32
    | _ :: _ =>
      let out := WasmVM.execute_instruction fops frame
      if out.2 then WasmVM.execute_loop fops fuel out.1
      else Value.num (WasmVM.top_or_zero out.1.stack).i32

/-- The same loop, returning the final frame instead of the
extracted host value; used to state what the public interface
observes of the final machine state. -/
def WasmVM.final_frame (fops : FloatOps) : Nat → ExecutionFrame → ExecutionFrame
  | 0, frame => frame
  | fuel + 1, frame =>
    match frame.code with
    | [] => frame
    | _ :: _ =>
      let out := WasmVM.execute_instruction fops frame
      if out.2 then WasmVM.final_frame fops fuel out.1
      else out.1

/-- The locals conversion of WasmVM::execute_function: a numeric
host argument is truncated to int32 and stored through the i32
member; any other argument leaves the local default-constructed.
(The C++ double-to-int32 cast is modelled as two's-complement
wraparound; every claim instantiates it inside the representable
range, where the two agree.) -/
def WasmVM.arg_to_local (v : Value) : WasmValue :=
  match v with
  | Value.num n => WasmValue.ofI32 n
  | _ => WasmValue.zero

/-- WasmVM::execute_function: empty bytecode returns the undefined
host value at once (before any frame exists); otherwise a single
frame over the byte range is created, the locals are filled from the
arguments, and the loop runs to its exit extraction.  Only one frame
is ever pushed on the call stack, so the loop above is the whole
while-loop of the source. -/
def WasmVM.execute_function (fops : FloatOps) (bytecode : List Nat)
    (args : List Value) : Value :=
  if bytecode.isEmpty then Value.undefined
  else
    WasmVM.execute_loop fops bytecode.length
      { code := bytecode, locals := args.map WasmVM.arg_to_local, stack := [] }

/-! ## Instance wiring (WasmInstance, src/unnamed/part_001) -/

/-- WasmInstance state: the shared module handle, the lazily created
linear memory and the lazily created module interpreter (represented
by its presence; the interpreter holds no state between calls except
the call stack, which is empty at every entry). -/
structure WasmInstance where
  module : WasmModule
  memory : Option WasmMemory
  vm : Bool

/-- WasmInstance::instantiate: requires a compiled module; lazily
creates the default 1-initial / 1024-maximum page memory and the
interpreter; safe to call repeatedly. -/
def WasmInstance.instantiate (inst : WasmInstance) : Bool × WasmInstance :=
  if ¬inst.module.is_compiled then (false, inst)
  else
    let inst2 :=
      if inst.memory.isNone then { inst with memory := some (WasmMemory.init 1 1024) }
      else inst
    let inst3 := if inst2.vm = false then { inst2 with vm := true } else inst2
    (true, inst3)

/-- The hand-written bytecode of the add export:
local.get 0, local.get 1, i32.add, return. -/
def add_export_bytecode : List Nat := [0x20, 0x00, 0x20, 0x01, 0x6A, 0x0F]

/-- The hand-written bytecode of the multiply export. -/
def multiply_export_bytecode : List Nat := [0x20, 0x00, 0x20, 0x01, 0x6C, 0x0F]

/-- The hand-written bytecode of the const42 export. -/
def const42_export_bytecode : List Nat := [0x41, 0x2A, 0x0F]

/-- WasmInstance::call_exported_function: requires the interpreter
and a compiled module, then dispatches the three fixed named
exports to their hand-written bytecode; every other name yields the
undefined value. -/
def WasmInstance.call_exported_function (fops : FloatOps) (inst : WasmInstance)
    (name : String) (args : List Value) : Value :=
  if ¬inst.vm ∨ ¬inst.module.is_compiled then Value.undefined
  else if name = "add" then
    WasmVM.execute_function fops add_export_bytecode args
  else if name = "multiply" then
    WasmVM.execute_function fops multiply_export_bytecode args
  else if name = "const42" then
    WasmVM.execute_function fops const42_export_bytecode args
  else Value.undefined

/-- The default binary every module construction path uses: exactly
the 8 WASM header bytes. -/
def default_binary : List Nat := [0x00, 0x61, 0x73, 0x6D, 0x01, 0x00, 0x00, 0x00]

/-- The module the WasmInstance constructor path produces: the
default binary, compiled. -/
def std_module : WasmModule :=
  (WasmModule.compile { binary_data := default_binary, sections := [], is_compiled := false }).2

/-- The instance the WasmInstance constructor path produces:
the compiled default module, instantiated. -/
def std_instance : WasmInstance :=
  (WasmInstance.instantiate { module := std_module, memory := none, vm := false }).2

/-! ## Helper lemmas -/

/-- No branch of the instruction dispatch writes to the executed
function. -/
theorem execute_instruction_simple_fst (op : BytecodeOp) (f : BytecodeFunction)
    (st : VMState) : (BytecodeVM.execute_instruction_simple op f st).1 = f := by
  rcases op with ⟨instr, ops⟩
  rcases st with ⟨regs, s, stats⟩
  cases instr with
  | LOAD_CONST =>
    cases ops with
    | nil => rfl
    | cons o rest2 =>
      dsimp only [BytecodeVM.execute_instruction_simple]
      split <;> rfl
  | ADD =>
    cases s with
    | nil => rfl
    | cons r s2 =>
      cases s2 with
      | nil => rfl
      | cons l s3 => rfl
  | CALL => rfl
  | RETURN => rfl
  | NOP => rfl
  | HALT => rfl

/-- The fetch-decode-execute loop never writes to the executed
function. -/
theorem run_ops_fst (f : BytecodeFunction) (ops : List BytecodeOp) (st : VMState) :
    (BytecodeVM.run_ops f ops st).1 = f := by
  induction ops generalizing f st with
  | nil => rfl
  | cons op rest ih =>
    rw [BytecodeVM.run_ops]
    split
    · exact execute_instruction_simple_fst op f st
    · rw [ih, execute_instruction_simple_fst]

/-- Filtering a list twice with the same predicate equals filtering
once. -/
theorem filter_idempotent {α : Type} (p : α → Bool) (l : List α) :
    (l.filter p).filter p = l.filter p := by
  induction l with
  | nil => rfl
  | cons a l ih =>
    by_cases h : p a <;> simp [List.filter_cons, h, ih]

/-- A singleton-leading LEB128 encoding: a byte below 0x80 decodes
to itself and consumes exactly that byte. -/
theorem read_leb128_u32_single (b : Nat) (rest : List Nat) (h : b < 0x80) :
    read_leb128_u32 (b :: rest) 0 0 = (b, rest) := by
  have h7F : b &&& 0x7F = b := by
    have h2 : b &&& (2 ^ 7 - 1) = b % 2 ^ 7 := Nat.and_pow_two_sub_one_eq_mod b 7
    norm_num at h2
    omega
  have h80 : b &&& 0x80 = 0 := by
    have h1 : b &&& 2 ^ 7 = (b.testBit 7).toNat * 2 ^ 7 := Nat.and_two_pow b 7
    have h2 : b.testBit 7 = false := Nat.testBit_eq_false_of_lt (by norm_num; omega)
    rw [h2] at h1
    norm_num at h1
    exact h1
  rw [read_leb128_u32]
  rw [h7F, h80]
  have hlt : b % 2 ^ 32 = b := Nat.mod_eq_of_lt (by omega)
  simp [Nat.shiftLeft_zero, Nat.zero_or, hlt]
  omega

/-- The value the execution loop returns is the i32 member view of
the stack top of the frame the loop ends in (the zero value on an
empty stack), whatever the tag of the last pushed value was. -/
theorem execute_loop_reads_i32 (fops : FloatOps) (fuel : Nat) (frame : ExecutionFrame) :
    WasmVM.execute_loop fops fuel frame =
      Value.num (WasmVM.top_or_zero (WasmVM.final_frame fops fuel frame).stack).i32 := by
  induction fuel generalizing frame with
  | zero => rfl
  | succ n ih =>
    rw [WasmVM.execute_loop, WasmVM.final_frame]
    cases h : frame.code with
    | nil => rfl
    | cons b rest =>
      by_cases hc : (WasmVM.execute_instruction fops frame).2 <;> simp [hc, ih]

/-- The i32 member view of a WasmValue built through the int32
constructor is the two's-complement 32-bit wraparound of the
integer. -/
theorem ofI32_i32_wraparound (v : Int) :
    (WasmValue.ofI32 v).i32 = (v + 2 ^ 31) % 2 ^ 32 - 2 ^ 31 := by
  have hnn : 0 ≤ v % 2 ^ 32 := Int.emod_nonneg v (by norm_num)
  have hub : v % 2 ^ 32 < 2 ^ 32 := Int.emod_lt_of_pos v (by norm_num)
  have hcast : (((v % 2 ^ 32).toNat : Nat) : Int) = v % 2 ^ 32 := Int.toNat_of_nonneg hnn
  rw [WasmValue.ofI32, WasmValue.i32]
  have hmod : (v % 2 ^ 32).toNat % 2 ^ 32 = (v % 2 ^ 32).toNat := by
    apply Nat.mod_eq_of_lt
    omega
  simp only [hmod]
  split <;> rename_i hle <;> omega

/-! ## Claim theorems -/

/-- C1: grow(deltaPages) returns failure exactly when size() plus
the delta (in uint32 arithmetic) exceeds maximumPages, and the page
count is never changed by grow.  The claim additionally demands that
a successful grow increase the page count by the requested delta;
the method never reallocates the buffer, so on the memory of 1
initial and 1024 maximum pages, grow(1) reports success while
size() stays 1 instead of becoming 2 — the success half of the
claim is a bug of the code, not of the spec. -/
theorem grow_success_leaves_size_unchanged :
    (∀ (m : WasmMemory) (delta : Nat),
       WasmMemory.grow m delta = true ↔
         (m.size + delta) % 2 ^ 32 ≤ m.maximum_pages) ∧
    WasmMemory.grow (WasmMemory.init 1 1024) 1 = true ∧
    (WasmMemory.init 1 1024).size = 1 := by
  refine ⟨fun m delta => ?_, by decide, by decide⟩
  rw [WasmMemory.grow]
  split <;> rename_i hgt
  · exact iff_of_false (by simp) (by omega)
  · exact iff_of_true rfl (by omega)

/-- C2 counterexample: a function that went through the bytecode
optimizer sits at tier 2 with the is_optimized flag set; promotion
rejects it even though it is not at tier 3, refuting the claimed
equivalence of rejection with being at tier 3. -/
theorem promote_rejects_tier2_function :
    (BytecodeJITBridge.compile_to_machine_code
      { function_name := "g", instructions := [], constants := [],
        register_count := 0, parameter_count := 0, hot_spots := fun _ => 0,
        is_optimized := true, optimization_level := 2 }).1 = false ∧
    ({ function_name := "g", instructions := [], constants := [],
       register_count := 0, parameter_count := 0, hot_spots := fun _ => 0,
       is_optimized := true, optimization_level := 2 } :
         BytecodeFunction).optimization_level ≠ 3 := by
  exact ⟨rfl, by decide⟩

/-- C2 (amended): promote returns failure and changes nothing
exactly when the is_optimized flag is already set (which the
bytecode optimizer sets at tiers 1 and 2 as well, so rejection is
not equivalent to being at tier 3); on an unflagged function it
succeeds, setting tier 3 and the flag, and after any promote call a
second promote of the result returns failure and leaves the state
unchanged. -/
theorem promote_gated_by_optimized_flag (f : BytecodeFunction) :
    BytecodeJITBridge.compile_to_machine_code f =
      (if f.is_optimized then (false, f)
       else (true, { f with is_optimized := true, optimization_level := 3 })) ∧
    BytecodeJITBridge.compile_to_machine_code
      (BytecodeJITBridge.compile_to_machine_code f).2 =
      (false, (BytecodeJITBridge.compile_to_machine_code f).2) := by
  constructor
  · rfl
  · by_cases h : f.is_optimized <;>
      simp [BytecodeJITBridge.compile_to_machine_code, h]

/-- C3: the claim says every instruction retirement increments the
executed function's hot-spot counter at the current program counter.
The interpreter defines record_execution to do exactly that, but its
execute loop never calls it (nor writes to the function in any other
way), so after executing a one-instruction RETURN function the
counter at address 0 is still 0 where the claim requires 1. -/
theorem execute_never_updates_hot_spots :
    (∀ (f : BytecodeFunction) (args : List Value),
       (BytecodeVM.execute f args).2.hot_spots = f.hot_spots) ∧
    (∀ (f : BytecodeFunction) (pc : Nat),
       (BytecodeVM.record_execution f pc).hot_spots pc = f.hot_spots pc + 1) ∧
    (BytecodeVM.execute
      { function_name := "f1",
        instructions := [⟨BytecodeInstruction.RETURN, []⟩], constants := [],
        register_count := 0, parameter_count := 0, hot_spots := fun _ => 0,
        is_optimized := false, optimization_level := 0 } []).2.hot_spots 0 = 0 := by
  refine ⟨fun f args => ?_, fun f pc => ?_, rfl⟩
  · rw [BytecodeVM.execute]
    rw [run_ops_fst]
  · rw [BytecodeVM.record_execution]
    simp

/-- C4: ADD pops b (the more recently pushed value, the list head)
then a; when both are numeric it pushes their numeric sum, otherwise
the concatenation of their string conversions; on (3, 4) the whole
interpreter yields 7, on two strings their concatenation, and on a
number and a string the mixed concatenation. -/
theorem add_pops_b_then_a_and_pushes :
    (∀ (f : BytecodeFunction) (ops : List BytecodeOperand) (regs : List Value)
       (stats : VMStats) (a b : Value) (rest : List Value),
       (BytecodeVM.execute_instruction_simple ⟨BytecodeInstruction.ADD, ops⟩ f
          ⟨regs, b :: a :: rest, stats⟩).2.stack =
         (if a.is_number && b.is_number then Value.num (a.to_number + b.to_number)
          else Value.str (a.to_string ++ b.to_string)) :: rest) ∧
    (BytecodeVM.execute
      { function_name := "t34",
        instructions :=
          [⟨BytecodeInstruction.LOAD_CONST, [⟨OperandType.CONSTANT, 0⟩]⟩,
           ⟨BytecodeInstruction.LOAD_CONST, [⟨OperandType.CONSTANT, 1⟩]⟩,
           ⟨BytecodeInstruction.ADD, []⟩, ⟨BytecodeInstruction.RETURN, []⟩],
        constants := [Value.num 3, Value.num 4], register_count := 0,
        parameter_count := 0, hot_spots := fun _ => 0, is_optimized := false,
        optimization_level := 0 } []).1 = Value.num 7 ∧
    (BytecodeVM.execute
      { function_name := "tab",
        instructions :=
          [⟨BytecodeInstruction.LOAD_CONST, [⟨OperandType.CONSTANT, 0⟩]⟩,
           ⟨BytecodeInstruction.LOAD_CONST, [⟨OperandType.CONSTANT, 1⟩]⟩,
           ⟨BytecodeInstruction.ADD, []⟩, ⟨BytecodeInstruction.RETURN, []⟩],
        constants := [Value.str "a", Value.str "b"], register_count := 0,
        parameter_count := 0, hot_spots := fun _ => 0, is_optimized := false,
        optimization_level := 0 } []).1 = Value.str "ab" ∧
    (BytecodeVM.execute
      { function_name := "t3b",
        instructions :=
          [⟨BytecodeInstruction.LOAD_CONST, [⟨OperandType.CONSTANT, 0⟩]⟩,
           ⟨BytecodeInstruction.LOAD_CONST, [⟨OperandType.CONSTANT, 1⟩]⟩,
           ⟨BytecodeInstruction.ADD, []⟩, ⟨BytecodeInstruction.RETURN, []⟩],
        constants := [Value.num 3, Value.str "b"], register_count := 0,
        parameter_count := 0, hot_spots := fun _ => 0, is_optimized := false,
        optimization_level := 0 } []).1 = Value.str "3b" := by
  refine ⟨fun f ops regs stats a b rest => rfl, by decide, by decide, by decide⟩

/-- C8: the optimization pipeline (dead-code elimination of NOP
instructions, run by optimize_bytecode at the level the compiler
uses) is idempotent on instruction sequences, and one run of it
produces the same instruction sequence as one run of the standalone
dead-code pass. -/
theorem optimize_bytecode_idempotent (f : BytecodeFunction) :
    (BytecodeCompiler.optimize_bytecode
        (BytecodeCompiler.optimize_bytecode f 2) 2).instructions =
      (BytecodeCompiler.optimize_bytecode f 2).instructions ∧
    (BytecodeCompiler.optimize_bytecode f 2).instructions =
      (BytecodeCompiler.dead_code_elimination_pass f).instructions := by
  constructor
  · simp [BytecodeCompiler.optimize_bytecode, filter_idempotent]
  · simp [BytecodeCompiler.optimize_bytecode,
      BytecodeCompiler.dead_code_elimination_pass]

/-- C9: a LOAD_CONST whose constant-pool index is not below the pool
size, or that carries no operand at all, leaves the operand stack
untouched (execution simply continues past it); in bounds, the
indexed constant is pushed, so the guarded access branch is exactly
the in-bounds case and no access is ever out of range. -/
theorem load_const_bounds_checked :
    (∀ (f : BytecodeFunction) (kind : OperandType) (idx : Nat) (regs : List Value)
       (s : List Value) (stats : VMStats),
       (BytecodeVM.execute_instruction_simple
          ⟨BytecodeInstruction.LOAD_CONST, [⟨kind, idx⟩]⟩ f ⟨regs, s, stats⟩).2.stack =
         (if idx < f.constants.length then
            f.constants.getD idx Value.undefined :: s
          else s)) ∧
    (∀ (f : BytecodeFunction) (regs : List Value) (s : List Value) (stats : VMStats),
       (BytecodeVM.execute_instruction_simple
          ⟨BytecodeInstruction.LOAD_CONST, []⟩ f ⟨regs, s, stats⟩).2.stack = s) := by
  refine ⟨fun f kind idx regs s stats => ?_, fun f regs s stats => rfl⟩
  dsimp only [BytecodeVM.execute_instruction_simple]
  split <;> simp

/-- A section whose single-byte declared size exceeds the remaining
input fails to parse. -/
theorem parse_section_truncated (id sizeB : Nat) (rest : List Nat)
    (h : sizeB < 0x80) (hlt : rest.length < sizeB) :
    parse_section (id :: sizeB :: rest) = none := by
  simp only [parse_section]
  rw [read_leb128_u32_single _ _ h]
  dsimp
  rw [if_neg (by omega)]

/-- A section whose single-byte declared size matches the available
payload parses into exactly that payload and leaves the remainder. -/
theorem parse_section_exact (id sizeB : Nat) (payload rest : List Nat)
    (h : sizeB < 0x80) (hlen : payload.length = sizeB) :
    parse_section (id :: sizeB :: (payload ++ rest)) =
      some ({ id := id, size := sizeB, data := payload }, rest) := by
  subst hlen
  simp only [parse_section]
  rw [read_leb128_u32_single _ _ h]
  dsimp
  rw [if_pos (by simp)]
  rw [List.take_left, List.drop_left]

/-- C5: decoding fails on fewer than 8 input bytes and on any byte
among the first eight differing from the magic-and-version header
constant; the exact 8 header bytes decode to the empty module with
no sections, and the same bytes with byte 0 flipped to 0x01 are
rejected.  (The source signals decode failure through a false
return - the InvalidHeader kind of the spec - and is_compiled_ stays
false, so failure produces no module.) -/
theorem decoder_header_validation :
    (∀ bytes : List Nat, bytes.length < 8 → parse_binary bytes = none) ∧
    (∀ bytes : List Nat,
       (bytes.getD 0 0 ≠ 0x00 ∨ bytes.getD 1 0 ≠ 0x61 ∨ bytes.getD 2 0 ≠ 0x73 ∨
        bytes.getD 3 0 ≠ 0x6D ∨ bytes.getD 4 0 ≠ 0x01 ∨ bytes.getD 5 0 ≠ 0x00 ∨
        bytes.getD 6 0 ≠ 0x00 ∨ bytes.getD 7 0 ≠ 0x00) →
       parse_binary bytes = none) ∧
    parse_binary [0x00, 0x61, 0x73, 0x6D, 0x01, 0x00, 0x00, 0x00] = some [] ∧
    parse_binary [0x01, 0x61, 0x73, 0x6D, 0x01, 0x00, 0x00, 0x00] = none := by
  refine ⟨fun bytes h => ?_, fun bytes h => ?_, by decide, by decide⟩
  · rw [parse_binary, if_pos h]
  · rw [parse_binary]
    split
    · rfl
    · split
      · rfl
      · split
        · rfl
        · rename_i h1 h2 h3
          exfalso
          push_neg at h2 h3
          rcases h with h|h|h|h|h|h|h|h <;> simp_all

/-- C6: after a valid header, each section is a one-byte id, a
variable-length size and exactly size payload bytes; a declared size
larger than the remaining input fails the section parse, fails the
whole decode, and produces no module (the TruncatedSection kind of
the spec), as on the concrete input declaring size 10 with only 4
bytes remaining. -/
theorem decoder_section_truncation :
    (∀ (id sizeB : Nat) (payload rest : List Nat), sizeB < 0x80 →
       payload.length = sizeB →
       parse_section (id :: sizeB :: (payload ++ rest)) =
         some ({ id := id, size := sizeB, data := payload }, rest)) ∧
    (∀ (id sizeB : Nat) (rest : List Nat), sizeB < 0x80 → rest.length < sizeB →
       parse_section (id :: sizeB :: rest) = none) ∧
    (∀ (id sizeB : Nat) (rest : List Nat), sizeB < 0x80 → rest.length < sizeB →
       parse_binary (0x00 :: 0x61 :: 0x73 :: 0x6D :: 0x01 :: 0x00 :: 0x00 :: 0x00 ::
         id :: sizeB :: rest) = none) ∧
    parse_binary (default_binary ++ [0x01, 10, 1, 2, 3, 4]) = none := by
  refine ⟨parse_section_exact, parse_section_truncated, ?_, by decide⟩
  intro id sizeB rest h hlt
  rw [parse_binary]
  rw [if_neg (by simp)]
  rw [if_neg (by simp)]
  rw [if_neg (by simp)]
  show parse_sections (id :: sizeB :: rest) = none
  simp only [parse_sections]
  have hf : (id :: sizeB :: rest).length = (rest.length + 1) + 1 := by simp
  rw [hf]
  simp only [parse_sections_loop]
  rw [parse_section_truncated id sizeB rest h hlt]

/-- C7: the i32 arithmetic handlers pop b (the more recently pushed
value) then a and push the 32-bit two's-complement wraparound of
a + b, a - b and a * b respectively (the wraparound shape of the
int32 constructor is stated explicitly); through the exported add
template with locals a, b the interpreter yields 0 for (0, 0), -2
for (-5, 3), and the wrapped -2147483648 for (2147483647, 1). -/
theorem i32_ops_pop_order_and_wrap :
    (∀ (code : List Nat) (locals : List WasmValue) (a b : WasmValue)
       (rest : List WasmValue),
       WasmVM.handle_i32_add ⟨code, locals, b :: a :: rest⟩ =
         (⟨code, locals, WasmValue.ofI32 (a.i32 + b.i32) :: rest⟩, true)) ∧
    (∀ (code : List Nat) (locals : List WasmValue) (a b : WasmValue)
       (rest : List WasmValue),
       WasmVM.handle_i32_sub ⟨code, locals, b :: a :: rest⟩ =
         (⟨code, locals, WasmValue.ofI32 (a.i32 - b.i32) :: rest⟩, true)) ∧
    (∀ (code : List Nat) (locals : List WasmValue) (a b : WasmValue)
       (rest : List WasmValue),
       WasmVM.handle_i32_mul ⟨code, locals, b :: a :: rest⟩ =
         (⟨code, locals, WasmValue.ofI32 (a.i32 * b.i32) :: rest⟩, true)) ∧
    (∀ v : Int, (WasmValue.ofI32 v).i32 = (v + 2 ^ 31) % 2 ^ 32 - 2 ^ 31) ∧
    WasmInstance.call_exported_function FloatOps.dummy std_instance "add"
      [Value.num 0, Value.num 0] = Value.num 0 ∧
    WasmInstance.call_exported_function FloatOps.dummy std_instance "add"
      [Value.num (-5), Value.num 3] = Value.num (-2) ∧
    WasmInstance.call_exported_function FloatOps.dummy std_instance "add"
      [Value.num 2147483647, Value.num 1] = Value.num (-2147483648) := by
  exact ⟨fun code locals a b rest => rfl, fun code locals a b rest => rfl,
    fun code locals a b rest => rfl, ofI32_i32_wraparound,
    by decide, by decide, by decide⟩

/-- C10 counterexample: invoked on an empty instruction byte
sequence, executeFunction returns the undefined host value before
any frame exists, not the zero number the claim prescribes for an
empty stack. -/
theorem execute_function_empty_returns_undefined :
    WasmVM.execute_function FloatOps.dummy [] [] = Value.undefined ∧
    Value.undefined ≠ Value.num 0 :=
  ⟨rfl, by decide⟩

/-- C10 (amended): for every invocation of executeFunction on a
nonempty instruction byte sequence, the returned host value is the
final frame's top-of-stack value read through the signed 32-bit
member of the value union and converted to the host number (the
zero value when the stack is empty) - even when the last executed
instruction pushed an f32- or f64-tagged value; an empty byte
sequence instead returns the undefined host value without creating
a frame. -/
theorem execute_function_returns_i32_view (fops : FloatOps) (bytecode : List Nat)
    (args : List Value) (h : bytecode ≠ []) :
    WasmVM.execute_function fops bytecode args =
      Value.num (WasmVM.top_or_zero
        (WasmVM.final_frame fops bytecode.length
          { code := bytecode, locals := args.map WasmVM.arg_to_local,
            stack := [] }).stack).i32 := by
  cases bytecode with
  | nil => exact absurd rfl h
  | cons b t =>
    rw [WasmVM.execute_function]
    rw [if_neg (by simp)]
    exact execute_loop_reads_i32 fops (b :: t).length _

/-- C10 witness: the amended theorem applied to the const42 export
bytecode. -/
theorem execute_function_returns_i32_view_witness :
    (const42_export_bytecode ≠ []) ∧
    WasmVM.execute_function FloatOps.dummy const42_export_bytecode [] =
      Value.num (WasmVM.top_or_zero
        (WasmVM.final_frame FloatOps.dummy const42_export_bytecode.length
          { code := const42_export_bytecode,
            locals := ([] : List Value).map WasmVM.arg_to_local,
            stack := [] }).stack).i32 :=
  ⟨by decide,
   execute_function_returns_i32_view FloatOps.dummy const42_export_bytecode []
     (by decide)⟩

/-- C5 witness: the header-failure halves of the theorem applied to
the empty input and to an input with a corrupted first magic byte. -/
theorem decoder_header_validation_witness :
    (([] : List Nat).length < 8 ∧ parse_binary [] = none) ∧
    parse_binary [0xFF, 0x61, 0x73, 0x6D, 0x01, 0x00, 0x00, 0x00] = none :=
  ⟨⟨by decide, decoder_header_validation.1 [] (by decide)⟩,
   decoder_header_validation.2.1 [0xFF, 0x61, 0x73, 0x6D, 0x01, 0x00, 0x00, 0x00]
     (by decide)⟩

/-- C6 witness: the truncation half of the theorem applied to a
section declaring size 10 with 4 bytes remaining. -/
theorem decoder_section_truncation_witness :
    ((10 : Nat) < 0x80 ∧ ([1, 2, 3, 4] : List Nat).length < 10) ∧
    parse_section (1 :: 10 :: [1, 2, 3, 4]) = none :=
  ⟨⟨by decide, by decide⟩,
   decoder_section_truncation.2.1 1 10 [1, 2, 3, 4] (by decide) (by decide)⟩

end Quanta
